import Mathlib

/-!
Verification of the OpenHamClock rig-bridge core against its specification.

The definitions below are shallow embeddings of the JavaScript sources:
  * `rig-bridge/core/state.js` — the shared state store (`updateState`);
  * `rig-bridge/plugins/usb/protocol-kenwood.js` — the Kenwood ASCII parser
    and (second half of the file) the Icom CI-V binary protocol
    (`handleData`, `bcdToFreq`, `freqToBCD`);
  * `plugins/protocol-yaesu.js` — the Yaesu ASCII parser;
  * `plugins/flrig.js` — the flrig adapter (`disconnect`);
  * `server.js` / `plugin-registry.js` — the PTT route handler,
    `PluginRegistry.switchPlugin` and `PluginRegistry.dispatch`.

JavaScript numbers that are used as non-negative integers are modelled as
`Nat`; byte buffers as `List Nat`; strings as `List Char` or `String`.
Dynamic JavaScript values stored in the state object are modelled by the
inductive `JsVal`, whose decidable equality coincides with strict `===`
on the primitive values the bridge actually stores.

The file is organised as definitions first, then the theorems about them.
-/

/-! ## Definitions -/

/-- A dynamic JavaScript primitive value as stored in the rig state object.
Strict equality `===` between such primitives is exactly decidable
equality of this type. -/
inductive JsVal where
  | vb (b : Bool)
  | vn (n : Nat)
  | vs (s : String)
deriving DecidableEq, Repr

/-- The five mutable fields of the shared rig state object that the
protocol adapters write through `updateState` (`state.js` lines 6-13,
minus the bookkeeping field `lastUpdate`). -/
inductive RigField where
  | connected
  | freq
  | mode
  | width
  | ptt
deriving DecidableEq, Repr

/-- The shared rig state object from `state.js`:
`{ connected, freq, mode, width, ptt, lastUpdate }`. -/
structure RigState where
  connected : JsVal
  freq : JsVal
  mode : JsVal
  width : JsVal
  ptt : JsVal
  lastUpdate : Nat
deriving DecidableEq, Repr

/-- The initial state literal of `state.js`:
`{ connected: false, freq: 0, mode: '', width: 0, ptt: false, lastUpdate: 0 }`. -/
def initialRigState : RigState :=
  { connected := .vb false, freq := .vn 0, mode := .vs "", width := .vn 0,
    ptt := .vb false, lastUpdate := 0 }

/-- Dynamic field read `state[prop]`. -/
def getField (st : RigState) : RigField → JsVal
  | .connected => st.connected
  | .freq => st.freq
  | .mode => st.mode
  | .width => st.width
  | .ptt => st.ptt

/-- Dynamic field write `state[prop] = value`. -/
def setField (st : RigState) : RigField → JsVal → RigState
  | .connected, v => { st with connected := v }
  | .freq, v => { st with freq := v }
  | .mode, v => { st with mode := v }
  | .width, v => { st with width := v }
  | .ptt, v => { st with ptt := v }

/-- The state store together with the ordered log of change events that
`broadcast` has emitted to the SSE clients. -/
structure StoreState where
  st : RigState
  events : List (RigField × JsVal)
deriving DecidableEq, Repr

/-- The store at process start: initial state, nothing broadcast. -/
def initialStore : StoreState := { st := initialRigState, events := [] }

/-- `updateState(prop, value)` from `state.js` lines 22-28:
```
if (state[prop] !== value) {
  state[prop] = value;
  state.lastUpdate = Date.now();
  broadcast({ type: 'update', prop, value });
}
```
`now` stands for `Date.now()`; the broadcast is recorded by appending
`(prop, value)` to the event log. -/
def updateState (prop : RigField) (value : JsVal) (now : Nat) (s : StoreState) : StoreState :=
  if getField s.st prop ≠ value then
    { st := { setField s.st prop value with lastUpdate := now },
      events := s.events ++ [(prop, value)] }
  else s

/-- Apply a list of `updateState` calls in order (the effect of one parse
step, which may call `updateState` several times). -/
def applyUpdates (us : List (RigField × JsVal)) (now : Nat) (s : StoreState) : StoreState :=
  us.foldl (fun s pv => updateState pv.1 pv.2 now s) s

/-! ### Icom CI-V BCD frequency codec (`protocol-icom.js` lines 160-185) -/

/-- The loop body of `bcdToFreq`, threading the JavaScript locals
`freq` and `mult` through the iteration over the bytes:
```
const lo = bytes[i] & 0x0f;
const hi = (bytes[i] >> 4) & 0x0f;
freq += lo * mult;  mult *= 10;
freq += hi * mult;  mult *= 10;
```
-/
def bcdToFreqGo : List Nat → Nat → Nat → Nat
  | [], freq, _ => freq
  | b :: bs, freq, mult =>
    bcdToFreqGo bs (freq + b % 16 * mult + b / 16 % 16 * (mult * 10)) (mult * 100)

/-- `bcdToFreq(bytes)`: decode a little-endian packed-BCD byte list into a
frequency, starting from `freq = 0`, `mult = 1`. -/
def bcdToFreq (bytes : List Nat) : Nat := bcdToFreqGo bytes 0 1

/-- The loop of `freqToBCD`, producing `n` bytes while dividing `f` by 100
per iteration:
```
const lo = f % 10; f = Math.floor(f / 10);
const hi = f % 10; f = Math.floor(f / 10);
bytes.push((hi << 4) | lo);
```
-/
def freqToBCDGo : Nat → Nat → List Nat
  | 0, _ => []
  | n + 1, f => (f / 10 % 10 * 16 + f % 10) :: freqToBCDGo n (f / 100)

/-- `freqToBCD(freq)`: encode a frequency into five packed-BCD bytes
(`Math.round` is the identity on the integer inputs modelled here). -/
def freqToBCD (freq : Nat) : List Nat := freqToBCDGo 5 freq

/-! ### ASCII protocol parsers (`protocol-kenwood.js` lines 48-85 and
`protocol-yaesu.js` lines 60-111) -/

/-- The whitespace characters `parseInt` skips (ASCII subset actually
occurring in CAT responses). -/
def jsWhitespace (c : Char) : Bool := c = ' ' || c = '\t' || c = '\n' || c = '\r'

/-- The decimal-digit test of `parseInt` (code points 48-57). -/
def isDigitChar (c : Char) : Bool := 48 ≤ c.toNat && c.toNat ≤ 57

/-- Accumulate the leading decimal digits of `cs` onto `acc`, stopping at
the first non-digit (the digit-consuming loop of `parseInt`). -/
def digitsVal : List Char → Nat → Nat
  | [], acc => acc
  | c :: cs, acc => if isDigitChar c then digitsVal cs (acc * 10 + (c.toNat - 48)) else acc

/-- `parseInt` requires at least one leading digit, else returns `NaN`
(modelled as `none`). -/
def leadingDigits? : List Char → Option Nat
  | [] => none
  | c :: cs => if isDigitChar c then some (digitsVal (c :: cs) 0) else none

/-- JavaScript `parseInt(s, 10)`: skip leading whitespace, consume an
optional sign, then a maximal run of decimal digits; `NaN` (here `none`)
when no digit follows. -/
def parseIntJS (s : List Char) : Option Int :=
  match s.dropWhile jsWhitespace with
  | [] => none
  | c :: rest =>
    if c = '-' then (leadingDigits? rest).map (fun n => -(n : Int))
    else if c = '+' then (leadingDigits? rest).map (fun n => (n : Int))
    else (leadingDigits? (c :: rest)).map (fun n => (n : Int))

/-- The Kenwood `MODES` table (`protocol-kenwood.js` lines 11-22); object
keys are the strings "1"…"9" and "A", looked up with a single character. -/
def kenwoodMODES (c : Char) : Option String :=
  if c = '1' then some "LSB" else if c = '2' then some "USB"
  else if c = '3' then some "CW" else if c = '4' then some "FM"
  else if c = '5' then some "AM" else if c = '6' then some "FSK"
  else if c = '7' then some "CW-R" else if c = '8' then some "DATA-LSB"
  else if c = '9' then some "FSK-R" else if c = 'A' then some "DATA-USB"
  else none

/-- The Yaesu `MODES` table (`protocol-yaesu.js` lines 11-26). -/
def yaesuMODES (c : Char) : Option String :=
  if c = '1' then some "LSB" else if c = '2' then some "USB"
  else if c = '3' then some "CW" else if c = '4' then some "FM"
  else if c = '5' then some "AM" else if c = '6' then some "RTTY-LSB"
  else if c = '7' then some "CW-R" else if c = '8' then some "DATA-LSB"
  else if c = '9' then some "RTTY-USB" else if c = 'A' then some "DATA-FM"
  else if c = 'B' then some "FM-N" else if c = 'C' then some "DATA-USB"
  else if c = 'D' then some "AM-N" else if c = 'E' then some "C4FM"
  else none

/-- Kenwood `parse(resp, updateState, getState)`: returns the ordered list
of `updateState` calls the function makes.  `cur` is the value
`getState('mode')` would return.  Transcribed case by case:
`IF` needs `resp.length >= 37` (frequency digits at 2..12, TX state at 28,
mode code at 29); `FA` parses digits after the prefix; `MD` looks up
`charAt(2)` (out-of-range `charAt` yields the empty string, whose table
lookup is `undefined`, falling back to the current mode). -/
def kenwoodParse (resp : List Char) (cur : JsVal) : List (RigField × JsVal) :=
  if resp.length < 2 then []
  else
    let cmd := resp.take 2
    if cmd = ['I', 'F'] then
      if 37 ≤ resp.length then
        let freqUpd :=
          match parseIntJS ((resp.drop 2).take 11) with
          | some f => if 0 < f then [(RigField.freq, JsVal.vn f.toNat)] else []
          | none => []
        let mode := ((kenwoodMODES (resp.getD 29 ' ')).map JsVal.vs).getD cur
        let ptt := JsVal.vb (resp.getD 28 ' ' != '0')
        freqUpd ++ [(RigField.mode, mode), (RigField.ptt, ptt)]
      else []
    else if cmd = ['F', 'A'] then
      match parseIntJS (resp.drop 2) with
      | some f => if 0 < f then [(RigField.freq, JsVal.vn f.toNat)] else []
      | none => []
    else if cmd = ['M', 'D'] then
      let mode :=
        match resp[2]? with
        | some c => ((kenwoodMODES c).map JsVal.vs).getD cur
        | none => cur
      [(RigField.mode, mode)]
    else []

/-- Yaesu `parse(resp, updateState, getState)`, same conventions as
`kenwoodParse`: `IF` needs `resp.length >= 27` (9 frequency digits at
2..10, mode code at 21, and, only when `resp.length >= 29`, TX state at
28); `MD` reads `charAt(1)` of the remainder when it has two characters
(`MD0X;` replies), else `charAt(0)`; `TX`/`RX` set PTT directly. -/
def yaesuParse (resp : List Char) (cur : JsVal) : List (RigField × JsVal) :=
  if resp.length < 2 then []
  else
    let cmd := resp.take 2
    if cmd = ['I', 'F'] then
      if 27 ≤ resp.length then
        let freqUpd :=
          match parseIntJS ((resp.drop 2).take 9) with
          | some f => if 0 < f then [(RigField.freq, JsVal.vn f.toNat)] else []
          | none => []
        let mode := ((yaesuMODES (resp.getD 21 ' ')).map JsVal.vs).getD cur
        let pttUpd :=
          if 29 ≤ resp.length then [(RigField.ptt, JsVal.vb (resp.getD 28 ' ' != '0'))]
          else []
        freqUpd ++ [(RigField.mode, mode)] ++ pttUpd
      else []
    else if cmd = ['F', 'A'] then
      match parseIntJS (resp.drop 2) with
      | some f => if 0 < f then [(RigField.freq, JsVal.vn f.toNat)] else []
      | none => []
    else if cmd = ['M', 'D'] then
      let modeStr := resp.drop 2
      let mode :=
        match (if 2 ≤ modeStr.length then modeStr[1]? else modeStr[0]?) with
        | some c => ((yaesuMODES c).map JsVal.vs).getD cur
        | none => cur
      [(RigField.mode, mode)]
    else if cmd = ['T', 'X'] ∨ cmd = ['R', 'X'] then
      [(RigField.ptt, JsVal.vb (cmd = ['T', 'X']))]
    else []

/-- Feed one Kenwood response line to the parser against the live store
(`getState('mode')` reads the store's current mode). -/
def applyKenwood (resp : List Char) (now : Nat) (s : StoreState) : StoreState :=
  applyUpdates (kenwoodParse resp (getField s.st RigField.mode)) now s

/-- Feed one Yaesu response line to the parser against the live store. -/
def applyYaesu (resp : List Char) (now : Nat) (s : StoreState) : StoreState :=
  applyUpdates (yaesuParse resp (getField s.st RigField.mode)) now s

/-- Lines the Kenwood parser drops without any store mutation: shorter
than a command prefix, an unrecognised prefix, or a recognised prefix
whose reply is too short for its shape. -/
def kenwoodDrops (resp : List Char) : Prop :=
  resp.length < 2 ∨
  (resp.take 2 ≠ ['I', 'F'] ∧ resp.take 2 ≠ ['F', 'A'] ∧ resp.take 2 ≠ ['M', 'D']) ∨
  (resp.take 2 = ['I', 'F'] ∧ resp.length < 37) ∨
  (resp.take 2 = ['F', 'A'] ∧ resp.length < 3) ∨
  (resp.take 2 = ['M', 'D'] ∧ resp.length < 3)

/-- Lines the Yaesu parser drops without any store mutation. -/
def yaesuDrops (resp : List Char) : Prop :=
  resp.length < 2 ∨
  (resp.take 2 ≠ ['I', 'F'] ∧ resp.take 2 ≠ ['F', 'A'] ∧ resp.take 2 ≠ ['M', 'D'] ∧
   resp.take 2 ≠ ['T', 'X'] ∧ resp.take 2 ≠ ['R', 'X']) ∨
  (resp.take 2 = ['I', 'F'] ∧ resp.length < 27) ∨
  (resp.take 2 = ['F', 'A'] ∧ resp.length < 3) ∨
  (resp.take 2 = ['M', 'D'] ∧ resp.length < 3)


/-! ### Icom CI-V binary reframer (`protocol-icom.js` lines 198-259) -/

/-- JS `Buffer.indexOf(x)`: index of the first occurrence of byte `x`. -/
def idxOf? (x : Nat) : List Nat → Option Nat
  | [] => none
  | a :: as => if a = x then some 0 else (idxOf? x as).map (· + 1)

/-- JS `buf.indexOf(0xfd, 2)`: first occurrence of the END sentinel at
index at least 2. -/
def fdIdx? (b : List Nat) : Option Nat := (idxOf? 0xfd (b.drop 2)).map (· + 2)

/-- The `while (true)` loop of `handleData` over the accumulated buffer:
drop noise up to the first `0xfe` START sentinel (when there is none the
whole accumulator is discarded, `buf = Buffer.alloc(0)`); look for the
`0xfd` END sentinel from index 2 on (when there is none, keep the
buffer and wait for more data); otherwise slice out one frame including
its END byte and continue on the remainder.  Returns the sliced frames
in order together with the leftover accumulator. -/
def civLoop (buf : List Nat) : List (List Nat) × List Nat :=
  let b := buf.dropWhile (fun a => a != 0xfe)
  match hfd : fdIdx? b with
  | none => ([], b)
  | some e =>
    let r := civLoop (b.drop (e + 1))
    (b.take (e + 1) :: r.1, r.2)
termination_by buf.length
decreasing_by
  have key : ∀ (x : Nat) (l : List Nat) (i : Nat), idxOf? x l = some i → i < l.length := by
    intro x l
    induction l with
    | nil => intro i h; exact absurd h (by simp [idxOf?])
    | cons a as ih =>
      intro i h
      simp only [List.length_cons]
      by_cases ha : a = x
      · simp [idxOf?, ha] at h
        omega
      · simp only [idxOf?, if_neg ha, Option.map_eq_some'] at h
        obtain ⟨j, hj, hji⟩ := h
        have := ih j hj
        omega
  obtain ⟨j, hj, hje⟩ : ∃ j, idxOf? 0xfd (b.drop 2) = some j ∧ j + 2 = e := by
    simpa [fdIdx?] using hfd
  have hj2 := key _ _ _ hj
  have hble : b.length ≤ buf.length := (List.dropWhile_sublist _).length_le
  unfold_let b at hj2 hble
  simp only [List.length_drop] at hj2 ⊢
  omega

/-- `handleData(data, rxBuf, …)`: concatenate the accumulator with the
new chunk and run the reframing loop; the first component is the list of
sliced frames (in processing order), the second the returned buffer. -/
def handleData (data rxBuf : List Nat) : List (List Nat) × List Nat :=
  civLoop (rxBuf ++ data)

/-- Feed a list of chunks to `handleData` one at a time, threading the
returned accumulator, starting from an empty buffer; collect all sliced
frames in order. -/
def feedChunks (chunks : List (List Nat)) : List (List Nat) × List Nat :=
  chunks.foldl (fun acc c => (acc.1 ++ (handleData c acc.2).1, (handleData c acc.2).2)) ([], [])

/-- The Icom `MODES` table (`protocol-icom.js` lines 115-128). -/
def icomMODES (b : Nat) : Option String :=
  if b = 0x00 then some "LSB" else if b = 0x01 then some "USB"
  else if b = 0x02 then some "AM" else if b = 0x03 then some "CW"
  else if b = 0x04 then some "RTTY" else if b = 0x05 then some "FM"
  else if b = 0x06 then some "WFM" else if b = 0x07 then some "CW-R"
  else if b = 0x08 then some "RTTY-R" else if b = 0x11 then some "DATA-LSB"
  else if b = 0x12 then some "DATA-USB" else if b = 0x17 then some "DATA-FM"
  else none

/-- The per-frame body of `handleData`'s loop after a frame has been
sliced out: skip frames shorter than 6 bytes or not starting with two
START sentinels; skip frames whose `to` byte (index 2) is not the
controller address `0xe0`; otherwise dispatch on the command byte
(index 4): `0x03`/`0x00` decode a 5-byte BCD frequency from bytes 5..9
when the frame is long enough (updating only when positive);
`0x04`/`0x01` update the mode from byte 5 through the mode table
(falling back to `getState('mode')`) and, when byte 6 exists, the filter
width; `0xfb` (OK) and `0xfa` (NG) touch no state. -/
def processFrame (frame : List Nat) (cur : JsVal) : List (RigField × JsVal) :=
  if frame.length < 6 then []
  else if ¬ (frame.getD 0 0 = 0xfe ∧ frame.getD 1 0 = 0xfe) then []
  else if frame.getD 2 0 ≠ 0xe0 then []
  else
    let cmd := frame.getD 4 0
    if cmd = 0x03 ∨ cmd = 0x00 then
      if 10 ≤ frame.length then
        let freq := bcdToFreq ((frame.drop 5).take 5)
        if 0 < freq then [(RigField.freq, JsVal.vn freq)] else []
      else []
    else if cmd = 0x04 ∨ cmd = 0x01 then
      if 7 ≤ frame.length then
        [(RigField.mode, ((icomMODES (frame.getD 5 0)).map JsVal.vs).getD cur)] ++
          (if 8 ≤ frame.length then [(RigField.width, JsVal.vn (frame.getD 6 0))] else [])
      else []
    else []

/-- Process a list of sliced frames in order against the store, reading
`getState('mode')` from the store as `handleData` does. -/
def processFrames (frames : List (List Nat)) (now : Nat) (s : StoreState) : StoreState :=
  frames.foldl (fun s f => applyUpdates (processFrame f (getField s.st RigField.mode)) now s) s


/-! ### Plugin registry and HTTP command surface
(`plugin-registry.js`, `server.js`, `plugins/flrig.js`) -/

/-- Lifecycle calls observed on adapter instances during a plugin switch. -/
inductive RegEvent where
  | disconnectEv (id : String)
  | createEv (id : String)
  | connectEv (id : String)
deriving DecidableEq, Repr

/-- The rig-instance slots of `PluginRegistry`: `_instance` (identified
here by the id of the plugin it was created from) and `_activeId`. -/
structure Registry where
  inst : Option String
  activeId : Option String
deriving DecidableEq, Repr

/-- Result of `switchPlugin`: the ordered lifecycle calls it made and the
updated registry. -/
structure SwitchResult where
  events : List RegEvent
  reg : Registry
deriving DecidableEq, Repr

/-- `PluginRegistry.switchPlugin(id)`: disconnect the current instance if
any (errors from `disconnect()` are caught, so the call always completes)
and null both slots; return early on a falsy or `'none'` id or an unknown
descriptor; otherwise `create` then `connect` the new instance inside a
`try` whose catch nulls both slots again.  `known` tells whether
`_descriptors` has the id; `createOk`/`connectOk` tell whether
`descriptor.create` and `instance.connect()` return without throwing. -/
def switchPlugin (reg : Registry) (id : String) (known : String → Bool)
    (createOk connectOk : Bool) : SwitchResult :=
  let ev1 : List RegEvent :=
    match reg.inst with
    | some prev => [RegEvent.disconnectEv prev]
    | none => []
  let reg1 : Registry :=
    match reg.inst with
    | some _ => { inst := none, activeId := none }
    | none => reg
  if id = "" ∨ id = "none" then { events := ev1, reg := reg1 }
  else if ¬ known id then { events := ev1, reg := reg1 }
  else if createOk then
    if connectOk then
      { events := ev1 ++ [RegEvent.createEv id, RegEvent.connectEv id],
        reg := { inst := some id, activeId := some id } }
    else
      { events := ev1 ++ [RegEvent.createEv id, RegEvent.connectEv id],
        reg := { inst := none, activeId := none } }
  else
    { events := ev1 ++ [RegEvent.createEv id],
      reg := { inst := none, activeId := none } }

/-- `disconnect()` of the flrig plugin (`plugins/flrig.js` lines 81-86):
stop the poll timer, drop the client, and mark the store disconnected
with `updateState('connected', false)`.  No other field is written. -/
def flrigDisconnect (now : Nat) (s : StoreState) : StoreState :=
  updateState RigField.connected (JsVal.vb false) now s

/-- Outcome of one `POST /ptt` request: the HTTP status sent back and the
`setPTT` argument dispatched to the active adapter, if any. -/
structure PttResult where
  status : Nat
  dispatched : Option Bool
deriving DecidableEq, Repr

/-- JS truthiness of the request body's `ptt` value (`ptt` / `!!ptt`). -/
def truthy : JsVal → Bool
  | .vb b => b
  | .vn n => n ≠ 0
  | .vs s => s ≠ ""

/-- The `POST /ptt` route handler (`server.js`):
```
if (ptt && !config.radio.pttEnabled) {
  return res.status(403).json({ error: 'PTT disabled in configuration' });
}
registry.dispatch('setPTT', !!ptt);
res.json({ success: true });
```
-/
def pttHandler (pttEnabled : Bool) (ptt : JsVal) : PttResult :=
  if truthy ptt ∧ ¬ pttEnabled then { status := 403, dispatched := none }
  else { status := 200, dispatched := some (truthy ptt) }

/-- A rig adapter instance as `dispatch` sees it: the set of rig-command
method names it implements. -/
structure AdapterInst where
  methods : List String
deriving DecidableEq, Repr

/-- `PluginRegistry.dispatch(method, ...args)`:
```
if (!this._instance) return false;
if (typeof this._instance[method] !== 'function') return false;
this._instance[method](...args);
return true;
```
The second component records the adapter calls made (method, args). -/
def dispatch (inst : Option AdapterInst) (method : String) (args : List JsVal) :
    Bool × List (String × List JsVal) :=
  match inst with
  | none => (false, [])
  | some i => if method ∈ i.methods then (true, [(method, args)]) else (false, [])

/-! ## Theorems -/

theorem getField_setField_same (st : RigState) (p : RigField) (v : JsVal) :
    getField (setField st p v) p = v := by
  cases p <;> rfl

theorem getField_setField_other (st : RigState) (p q : RigField) (v : JsVal) (h : q ≠ p) :
    getField (setField st p v) q = getField st q := by
  cases p <;> cases q <;> first | rfl | exact absurd rfl h

theorem getField_lastUpdate (st : RigState) (q : RigField) (n : Nat) :
    getField { st with lastUpdate := n } q = getField st q := by
  cases q <;> rfl

/-- C3: `updateState(p, v)` is a no-op (same state, no event) when `v`
equals the stored value of `p`; otherwise it stores `v` into `p`,
refreshes `lastUpdate`, appends exactly one change event `(p, v)` to the
broadcast log, and leaves every field other than `p` and `lastUpdate`
unchanged. -/
theorem updateState_spec (p : RigField) (v : JsVal) (now : Nat) (s : StoreState) :
    (getField s.st p = v → updateState p v now s = s) ∧
    (getField s.st p ≠ v →
      getField (updateState p v now s).st p = v ∧
      (updateState p v now s).st.lastUpdate = now ∧
      (updateState p v now s).events = s.events ++ [(p, v)] ∧
      ∀ q : RigField, q ≠ p → getField (updateState p v now s).st q = getField s.st q) := by
  constructor
  · intro h
    simp [updateState, h]
  · intro h
    refine ⟨?_, ?_, ?_, ?_⟩
    · simp only [updateState, if_pos h]
      rw [getField_lastUpdate, getField_setField_same]
    · simp only [updateState, if_pos h]
    · simp only [updateState, if_pos h]
    · intro q hq
      simp only [updateState, if_pos h]
      rw [getField_lastUpdate, getField_setField_other _ _ _ _ hq]

/-- Witness for `updateState_spec` at a concrete input: in the initial
store, `freq` is `0`, so setting it to `14074000` stores the value. -/
theorem updateState_spec_witness :
    getField initialStore.st RigField.freq ≠ JsVal.vn 14074000 ∧
      getField (updateState RigField.freq (JsVal.vn 14074000) 5 initialStore).st RigField.freq =
        JsVal.vn 14074000 :=
  ⟨by decide, ((updateState_spec RigField.freq (JsVal.vn 14074000) 5 initialStore).2 (by decide)).1⟩

theorem bcdToFreqGo_freqToBCDGo (n : Nat) :
    ∀ (f freq mult : Nat), f < 10 ^ (2 * n) →
      bcdToFreqGo (freqToBCDGo n f) freq mult = freq + mult * f := by
  induction n with
  | zero =>
    intro f freq mult hf
    have : f = 0 := by simpa using hf
    simp [freqToBCDGo, bcdToFreqGo, this]
  | succ n ih =>
    intro f freq mult hf
    have hb1 : (f / 10 % 10 * 16 + f % 10) % 16 = f % 10 := by omega
    have hb2 : (f / 10 % 10 * 16 + f % 10) / 16 % 16 = f / 10 % 10 := by omega
    have hlt : f / 100 < 10 ^ (2 * n) := by
      have h1 : 10 ^ (2 * (n + 1)) = 10 ^ (2 * n) * 100 := by ring
      rw [h1] at hf
      omega
    have hsplit : f = f % 10 + 10 * (f / 10 % 10) + 100 * (f / 100) := by omega
    simp only [freqToBCDGo, bcdToFreqGo, hb1, hb2, ih (f / 100) _ _ hlt]
    nth_rewrite 4 [hsplit]
    ring

/-- C2: for every frequency representable in five packed-BCD bytes
(ten decimal digits), decoding the encoding round-trips:
`bcdToFreq(freqToBCD(f)) == f`. -/
theorem bcd_roundtrip (f : Nat) (hf : f < 10 ^ 10) :
    bcdToFreq (freqToBCD f) = f := by
  have := bcdToFreqGo_freqToBCDGo 5 f 0 1 (by norm_num at hf ⊢; omega)
  simpa [bcdToFreq, freqToBCD] using this

/-- Witness for `bcd_roundtrip` at the FT8 20 m frequency. -/
theorem bcd_roundtrip_witness :
    14074000 < 10 ^ 10 ∧ bcdToFreq (freqToBCD 14074000) = 14074000 :=
  ⟨by norm_num, bcd_roundtrip 14074000 (by norm_num)⟩

theorem char_ne_of_toNat_ne {c d : Char} (h : c.toNat ≠ d.toNat) : c ≠ d :=
  fun e => h (congrArg Char.toNat e)

theorem digit_not_ws (c : Char) (h : isDigitChar c = true) : jsWhitespace c = false := by
  simp only [isDigitChar, Bool.and_eq_true, decide_eq_true_eq] at h
  simp only [jsWhitespace, Bool.or_eq_false_iff, decide_eq_false_iff_not]
  refine ⟨⟨⟨?_, ?_⟩, ?_⟩, ?_⟩ <;> · intro e; subst e; exact absurd h (by decide)

theorem digit_not_sign (c : Char) (h : isDigitChar c = true) : c ≠ '-' ∧ c ≠ '+' := by
  simp only [isDigitChar, Bool.and_eq_true, decide_eq_true_eq] at h
  constructor <;> · intro e; subst e; exact absurd h (by decide)

/-- On a non-empty all-digit string, `parseInt` succeeds and returns its
decimal value. -/
theorem parseIntJS_all_digits (c : Char) (cs : List Char)
    (h : ∀ d ∈ c :: cs, isDigitChar d = true) :
    parseIntJS (c :: cs) = some ((digitsVal (c :: cs) 0 : Nat) : Int) := by
  have hc := h c (by simp)
  have hws := digit_not_ws c hc
  have hsn := digit_not_sign c hc
  unfold parseIntJS
  rw [List.dropWhile_cons, hws]
  simp [leadingDigits?, if_neg hsn.1, if_neg hsn.2, hc]

theorem kenwoodParse_IF_spec (resp : List Char) (cur : JsVal)
    (hpfx : resp.take 2 = ['I', 'F'])
    (hlen : 37 ≤ resp.length)
    (hdig : ∀ c ∈ (resp.drop 2).take 11, isDigitChar c = true)
    (hpos : 0 < digitsVal ((resp.drop 2).take 11) 0) :
    kenwoodParse resp cur =
      [(RigField.freq, JsVal.vn (digitsVal ((resp.drop 2).take 11) 0)),
       (RigField.mode, ((kenwoodMODES (resp.getD 29 ' ')).map JsVal.vs).getD cur),
       (RigField.ptt, JsVal.vb (resp.getD 28 ' ' != '0'))] := by
  have hlen2 : ¬ (resp.length < 2) := by omega
  obtain ⟨c, cs, hcc⟩ : ∃ c cs, (resp.drop 2).take 11 = c :: cs := by
    cases h : (resp.drop 2).take 11 with
    | nil =>
      exfalso
      have h0 : ((resp.drop 2).take 11).length = 0 := by rw [h]; rfl
      simp [List.length_take, List.length_drop] at h0
      omega
    | cons c cs => exact ⟨c, cs, rfl⟩
  unfold kenwoodParse
  rw [if_neg hlen2, if_pos hpfx, if_pos hlen, hcc,
    parseIntJS_all_digits c cs (hcc ▸ hdig)]
  rw [← hcc]
  have hposInt : (0 : Int) < ((digitsVal ((resp.drop 2).take 11) 0 : Nat) : Int) := by
    exact_mod_cast hpos
  simp [if_pos hposInt]
  rw [if_pos hpos]
  rfl

theorem yaesuParse_IF_spec (resp : List Char) (cur : JsVal)
    (hpfx : resp.take 2 = ['I', 'F'])
    (hlen : 29 ≤ resp.length)
    (hdig : ∀ c ∈ (resp.drop 2).take 9, isDigitChar c = true)
    (hpos : 0 < digitsVal ((resp.drop 2).take 9) 0) :
    yaesuParse resp cur =
      [(RigField.freq, JsVal.vn (digitsVal ((resp.drop 2).take 9) 0)),
       (RigField.mode, ((yaesuMODES (resp.getD 21 ' ')).map JsVal.vs).getD cur),
       (RigField.ptt, JsVal.vb (resp.getD 28 ' ' != '0'))] := by
  have hlen2 : ¬ (resp.length < 2) := by omega
  have hlen27 : 27 ≤ resp.length := by omega
  obtain ⟨c, cs, hcc⟩ : ∃ c cs, (resp.drop 2).take 9 = c :: cs := by
    cases h : (resp.drop 2).take 9 with
    | nil =>
      exfalso
      have h0 : ((resp.drop 2).take 9).length = 0 := by rw [h]; rfl
      simp [List.length_take, List.length_drop] at h0
      omega
    | cons c cs => exact ⟨c, cs, rfl⟩
  unfold yaesuParse
  rw [if_neg hlen2, if_pos hpfx, if_pos hlen27, hcc,
    parseIntJS_all_digits c cs (hcc ▸ hdig)]
  rw [← hcc]
  have hposInt : (0 : Int) < ((digitsVal ((resp.drop 2).take 9) 0 : Nat) : Int) := by
    exact_mod_cast hpos
  simp [if_pos hposInt, if_pos hlen]
  rw [if_pos hpos]
  rfl

/-- C4: a well-formed composite-status (`IF`) reply of the required fixed
width sets the frequency from the decimal digit substring at the
documented offset (given it parses to a positive number), sets the mode
from the single code character through the mode table (falling back to
the current mode if the code is unrecognised), and sets PTT to true
exactly when the TX-state character is not `'0'` — for the Kenwood parser
(frequency digits at 2..12, TX at 28, mode at 29) and the Yaesu parser
(frequency digits at 2..10, mode at 21, TX at 28) alike. -/
theorem composite_status_parse (respK respY : List Char) (cur : JsVal) :
    (respK.take 2 = ['I', 'F'] → 37 ≤ respK.length →
      (∀ c ∈ (respK.drop 2).take 11, isDigitChar c = true) →
      0 < digitsVal ((respK.drop 2).take 11) 0 →
      kenwoodParse respK cur =
        [(RigField.freq, JsVal.vn (digitsVal ((respK.drop 2).take 11) 0)),
         (RigField.mode, ((kenwoodMODES (respK.getD 29 ' ')).map JsVal.vs).getD cur),
         (RigField.ptt, JsVal.vb (respK.getD 28 ' ' != '0'))]) ∧
    (respY.take 2 = ['I', 'F'] → 29 ≤ respY.length →
      (∀ c ∈ (respY.drop 2).take 9, isDigitChar c = true) →
      0 < digitsVal ((respY.drop 2).take 9) 0 →
      yaesuParse respY cur =
        [(RigField.freq, JsVal.vn (digitsVal ((respY.drop 2).take 9) 0)),
         (RigField.mode, ((yaesuMODES (respY.getD 21 ' ')).map JsVal.vs).getD cur),
         (RigField.ptt, JsVal.vb (respY.getD 28 ' ' != '0'))]) :=
  ⟨fun h1 h2 h3 h4 => kenwoodParse_IF_spec respK cur h1 h2 h3 h4,
   fun h1 h2 h3 h4 => yaesuParse_IF_spec respY cur h1 h2 h3 h4⟩

/-- Witness for `composite_status_parse`: the composite-status lines for
14074000 Hz, mode code `'2'` (USB) and TX character `'0'` yield
`freq = 14074000`, `mode = "USB"`, `ptt = false` on both parsers. -/
theorem composite_status_parse_witness :
    kenwoodParse "IF00014074000000000000000000020000000".data (JsVal.vs "") =
        [(RigField.freq, JsVal.vn 14074000), (RigField.mode, JsVal.vs "USB"),
         (RigField.ptt, JsVal.vb false)] ∧
      yaesuParse "IF014074000000000000020000000".data (JsVal.vs "") =
        [(RigField.freq, JsVal.vn 14074000), (RigField.mode, JsVal.vs "USB"),
         (RigField.ptt, JsVal.vb false)] := by
  constructor
  · have h := (composite_status_parse "IF00014074000000000000000000020000000".data
      "IF014074000000000000020000000".data (JsVal.vs "")).1
      (by decide) (by decide) (by decide) (by decide)
    rw [h]
    decide
  · have h := (composite_status_parse "IF00014074000000000000000000020000000".data
      "IF014074000000000000020000000".data (JsVal.vs "")).2
      (by decide) (by decide) (by decide) (by decide)
    rw [h]
    decide

theorem length_ge_two_of_take (resp : List Char) (a b : Char) (h : resp.take 2 = [a, b]) :
    2 ≤ resp.length := by
  have := congrArg List.length h
  simp [List.length_take] at this
  omega

theorem applyUpdates_mode_cur (now : Nat) (s : StoreState) :
    applyUpdates [(RigField.mode, getField s.st RigField.mode)] now s = s := by
  simp [applyUpdates, updateState]

/-- C9: the parse functions are total (they are Lean functions), and any
line that is shorter than a command prefix, has an unrecognised prefix,
or is too short for its recognised shape leaves the state store entirely
unchanged — for the Kenwood and the Yaesu parser alike. -/
theorem parse_garbage_no_mutation (resp : List Char) (now : Nat) (s : StoreState) :
    (kenwoodDrops resp → applyKenwood resp now s = s) ∧
    (yaesuDrops resp → applyYaesu resp now s = s) := by
  constructor
  · intro h
    rcases h with h | ⟨h1, h2, h3⟩ | ⟨h1, h2⟩ | ⟨h1, h2⟩ | ⟨h1, h2⟩
    · simp [applyKenwood, kenwoodParse, if_pos h, applyUpdates]
    · by_cases hl : resp.length < 2
      · simp [applyKenwood, kenwoodParse, if_pos hl, applyUpdates]
      · simp [applyKenwood, kenwoodParse, if_neg hl, if_neg h1, if_neg h2, if_neg h3,
          applyUpdates]
    · have hge := length_ge_two_of_take resp 'I' 'F' h1
      have hl : ¬ (resp.length < 2) := by omega
      have h37 : ¬ (37 ≤ resp.length) := by omega
      simp [applyKenwood, kenwoodParse, if_neg hl, if_pos h1, if_neg h37, applyUpdates]
    · have hge := length_ge_two_of_take resp 'F' 'A' h1
      have hl : ¬ (resp.length < 2) := by omega
      have hdrop : resp.drop 2 = [] := by
        apply List.eq_nil_of_length_eq_zero
        simp [List.length_drop]
        omega
      have hFA : resp.take 2 ≠ ['I', 'F'] := by rw [h1]; decide
      simp [applyKenwood, kenwoodParse, if_neg hl, if_neg hFA, if_pos h1, hdrop,
        parseIntJS, applyUpdates]
    · have hge := length_ge_two_of_take resp 'M' 'D' h1
      have hl : ¬ (resp.length < 2) := by omega
      have hIF : resp.take 2 ≠ ['I', 'F'] := by rw [h1]; decide
      have hFA : resp.take 2 ≠ ['F', 'A'] := by rw [h1]; decide
      have hnone : resp[2]? = none := by
        apply List.getElem?_eq_none
        omega
      have := applyUpdates_mode_cur now s
      simp [applyKenwood, kenwoodParse, if_neg hl, if_neg hIF, if_neg hFA, if_pos h1, hnone]
      simpa [applyUpdates] using this
  · intro h
    rcases h with h | ⟨h1, h2, h3, h4, h5⟩ | ⟨h1, h2⟩ | ⟨h1, h2⟩ | ⟨h1, h2⟩
    · simp [applyYaesu, yaesuParse, if_pos h, applyUpdates]
    · by_cases hl : resp.length < 2
      · simp [applyYaesu, yaesuParse, if_pos hl, applyUpdates]
      · have hTR : ¬ (resp.take 2 = ['T', 'X'] ∨ resp.take 2 = ['R', 'X']) := by
          push_neg
          exact ⟨h4, h5⟩
        simp [applyYaesu, yaesuParse, if_neg hl, if_neg h1, if_neg h2, if_neg h3,
          if_neg hTR, applyUpdates]
    · have hge := length_ge_two_of_take resp 'I' 'F' h1
      have hl : ¬ (resp.length < 2) := by omega
      have h27 : ¬ (27 ≤ resp.length) := by omega
      simp [applyYaesu, yaesuParse, if_neg hl, if_pos h1, if_neg h27, applyUpdates]
    · have hge := length_ge_two_of_take resp 'F' 'A' h1
      have hl : ¬ (resp.length < 2) := by omega
      have hdrop : resp.drop 2 = [] := by
        apply List.eq_nil_of_length_eq_zero
        simp [List.length_drop]
        omega
      have hIF : resp.take 2 ≠ ['I', 'F'] := by rw [h1]; decide
      simp [applyYaesu, yaesuParse, if_neg hl, if_neg hIF, if_pos h1, hdrop,
        parseIntJS, applyUpdates]
    · have hge := length_ge_two_of_take resp 'M' 'D' h1
      have hl : ¬ (resp.length < 2) := by omega
      have hIF : resp.take 2 ≠ ['I', 'F'] := by rw [h1]; decide
      have hFA : resp.take 2 ≠ ['F', 'A'] := by rw [h1]; decide
      have hdrop : resp.drop 2 = [] := by
        apply List.eq_nil_of_length_eq_zero
        simp [List.length_drop]
        omega
      have := applyUpdates_mode_cur now s
      simp [applyYaesu, yaesuParse, if_neg hl, if_neg hIF, if_neg hFA, if_pos h1, hdrop]
      simpa [applyUpdates] using this

/-- Witness for `parse_garbage_no_mutation`: the garbage line `XY123`
is dropped by both parsers without touching the initial store. -/
theorem parse_garbage_no_mutation_witness :
    kenwoodDrops "XY123".data ∧ yaesuDrops "XY123".data ∧
      applyKenwood "XY123".data 7 initialStore = initialStore ∧
      applyYaesu "XY123".data 7 initialStore = initialStore := by
  refine ⟨?_, ?_, ?_, ?_⟩
  · simp only [kenwoodDrops]
    decide
  · simp only [yaesuDrops]
    decide
  · exact (parse_garbage_no_mutation "XY123".data 7 initialStore).1
      (by simp only [kenwoodDrops]; decide)
  · exact (parse_garbage_no_mutation "XY123".data 7 initialStore).2
      (by simp only [yaesuDrops]; decide)

theorem idxOf?_lt_length (x : Nat) (l : List Nat) (i : Nat) (h : idxOf? x l = some i) :
    i < l.length := by
  induction l generalizing i with
  | nil => exact absurd h (by simp [idxOf?])
  | cons a as ih =>
    simp only [List.length_cons]
    by_cases ha : a = x
    · simp [idxOf?, ha] at h
      omega
    · simp only [idxOf?, if_neg ha, Option.map_eq_some'] at h
      obtain ⟨j, hj, hji⟩ := h
      have := ih j hj
      omega

theorem idxOf?_append (x : Nat) (u v : List Nat) :
    idxOf? x (u ++ v) =
      match idxOf? x u with
      | some i => some i
      | none => (idxOf? x v).map (· + u.length) := by
  induction u with
  | nil => cases hv : idxOf? x v <;> simp [idxOf?, hv]
  | cons a as ih =>
    by_cases ha : a = x
    · simp [idxOf?, ha]
    · simp only [List.cons_append, idxOf?, if_neg ha, List.append_eq, ih]
      cases h : idxOf? x as with
      | some i => simp
      | none =>
        cases hv : idxOf? x v with
        | none => simp
        | some j =>
          simp only [Option.map_some', List.length_cons]
          congr 1

theorem fdIdx?_bounds (b : List Nat) (e : Nat) (h : fdIdx? b = some e) :
    2 ≤ e ∧ e < b.length := by
  obtain ⟨j, hj, hje⟩ : ∃ j, idxOf? 0xfd (b.drop 2) = some j ∧ j + 2 = e := by
    simpa [fdIdx?] using h
  have := idxOf?_lt_length _ _ _ hj
  simp only [List.length_drop] at this
  omega

theorem fdIdx?_append (b d : List Nat) (e : Nat) (h : fdIdx? b = some e) :
    fdIdx? (b ++ d) = some e := by
  obtain ⟨j, hj, hje⟩ : ∃ j, idxOf? 0xfd (b.drop 2) = some j ∧ j + 2 = e := by
    simpa [fdIdx?] using h
  have hb := fdIdx?_bounds b e h
  have hb2 : 2 ≤ b.length := by omega
  have hdrop : (b ++ d).drop 2 = b.drop 2 ++ d := List.drop_append_of_le_length hb2
  simp only [fdIdx?, hdrop, idxOf?_append, hj]
  simp [hje]

theorem dropWhile_dropWhile (p : Nat → Bool) (l : List Nat) :
    (l.dropWhile p).dropWhile p = l.dropWhile p := by
  induction l with
  | nil => rfl
  | cons a as ih =>
    by_cases h : p a
    · simp [List.dropWhile_cons, h, ih]
    · simp [List.dropWhile_cons, h]

theorem civLoop_congr (x y : List Nat)
    (h : x.dropWhile (fun a => a != 0xfe) = y.dropWhile (fun a => a != 0xfe)) :
    civLoop x = civLoop y := by
  unfold civLoop
  rw [h]

theorem dropWhile_append_dropWhile (x d : List Nat) :
    (x ++ d).dropWhile (fun a => a != 0xfe) =
      ((x.dropWhile (fun a => a != 0xfe)) ++ d).dropWhile (fun a => a != 0xfe) := by
  rw [List.dropWhile_append, List.dropWhile_append, dropWhile_dropWhile]

theorem civLoop_of_fdIdx_none (x : List Nat)
    (hfd : fdIdx? (x.dropWhile (fun a => a != 0xfe)) = none) :
    civLoop x = ([], x.dropWhile (fun a => a != 0xfe)) := by
  rw [civLoop]
  split
  · rfl
  · rename_i e heq
    rw [hfd] at heq
    cases heq

theorem civLoop_of_fdIdx_some (x : List Nat) (e : Nat)
    (hfd : fdIdx? (x.dropWhile (fun a => a != 0xfe)) = some e) :
    civLoop x =
      ((x.dropWhile (fun a => a != 0xfe)).take (e + 1) ::
         (civLoop ((x.dropWhile (fun a => a != 0xfe)).drop (e + 1))).1,
       (civLoop ((x.dropWhile (fun a => a != 0xfe)).drop (e + 1))).2) := by
  rw [civLoop]
  split
  · rename_i heq
    rw [hfd] at heq
    cases heq
  · rename_i e2 heq
    rw [hfd] at heq
    cases heq
    rfl

/-- Appending more bytes to a buffer continues the reframing exactly where
it left off: the frames of `x ++ d` are the frames of `x` followed by the
frames extracted from the leftover of `x` with `d` appended. -/
theorem civLoop_append (d x : List Nat) :
    civLoop (x ++ d) =
      ((civLoop x).1 ++ (civLoop ((civLoop x).2 ++ d)).1,
       (civLoop ((civLoop x).2 ++ d)).2) := by
  induction x using civLoop.induct with
  | case1 x b hfd =>
    unfold_let b at hfd
    rw [civLoop_congr (x ++ d) ((x.dropWhile (fun a => a != 0xfe)) ++ d)
      (dropWhile_append_dropWhile x d), civLoop_of_fdIdx_none x hfd]
    simp
  | case2 x b e hfd ih =>
    unfold_let b at hfd ih
    have hb := fdIdx?_bounds _ e hfd
    have hself : (x.dropWhile (fun a => a != 0xfe)).dropWhile (fun a => a != 0xfe)
        = x.dropWhile (fun a => a != 0xfe) := dropWhile_dropWhile _ x
    have hbne : ((x.dropWhile (fun a => a != 0xfe)).isEmpty) = false := by
      cases hb2 : x.dropWhile (fun a => a != 0xfe) with
      | nil => rw [hb2] at hb; simp at hb
      | cons hd tl => rfl
    have hdw : ((x.dropWhile (fun a => a != 0xfe)) ++ d).dropWhile (fun a => a != 0xfe)
        = (x.dropWhile (fun a => a != 0xfe)) ++ d := by
      rw [List.dropWhile_append, hself, hbne]
      simp
    have h2 : fdIdx? ((((x.dropWhile (fun a => a != 0xfe)) ++ d)).dropWhile
        (fun a => a != 0xfe)) = some e := by
      rw [hdw]
      exact fdIdx?_append _ d e hfd
    have htake : ((x.dropWhile (fun a => a != 0xfe)) ++ d).take (e + 1)
        = (x.dropWhile (fun a => a != 0xfe)).take (e + 1) :=
      List.take_append_of_le_length (by omega)
    have hdrop2 : ((x.dropWhile (fun a => a != 0xfe)) ++ d).drop (e + 1)
        = (x.dropWhile (fun a => a != 0xfe)).drop (e + 1) ++ d :=
      List.drop_append_of_le_length (by omega)
    rw [civLoop_congr (x ++ d) ((x.dropWhile (fun a => a != 0xfe)) ++ d)
      (dropWhile_append_dropWhile x d),
      civLoop_of_fdIdx_some _ e h2,
      civLoop_of_fdIdx_some x e hfd]
    rw [hdw, htake, hdrop2, ih]
    simp

/-- The leftover buffer of a reframing pass yields no further frame when
reprocessed on its own. -/
theorem civLoop_leftover (x : List Nat) :
    civLoop ((civLoop x).2) = ([], (civLoop x).2) := by
  induction x using civLoop.induct with
  | case1 x b hfd =>
    unfold_let b at hfd
    rw [civLoop_of_fdIdx_none x hfd]
    show civLoop (x.dropWhile (fun a => a != 0xfe)) = ([], x.dropWhile (fun a => a != 0xfe))
    rw [civLoop_of_fdIdx_none (x.dropWhile (fun a => a != 0xfe))
      (by rw [dropWhile_dropWhile]; exact hfd), dropWhile_dropWhile]
  | case2 x b e hfd ih =>
    unfold_let b at hfd ih
    rw [civLoop_of_fdIdx_some x e hfd]
    simpa using ih

theorem feedChunks_go (chunks : List (List Nat)) :
    ∀ (fs : List (List Nat)) (l : List Nat), civLoop l = ([], l) →
      chunks.foldl (fun acc c => (acc.1 ++ (handleData c acc.2).1, (handleData c acc.2).2)) (fs, l)
        = (fs ++ (civLoop (l ++ chunks.flatten)).1, (civLoop (l ++ chunks.flatten)).2) := by
  induction chunks with
  | nil =>
    intro fs l hl
    simp [List.flatten, hl]
  | cons c cs ih =>
    intro fs l hl
    simp only [List.foldl_cons]
    rw [ih (fs ++ (handleData c l).1) (handleData c l).2 (civLoop_leftover (l ++ c))]
    have hjoin : l ++ (c :: cs).flatten = (l ++ c) ++ cs.flatten := by
      simp [List.flatten]
    rw [hjoin, civLoop_append cs.flatten (l ++ c)]
    simp [handleData, List.append_assoc]

/-- C1: feeding a byte stream to the CI-V reframer `handleData` in chunks
(threading the returned accumulator, starting from an empty buffer)
slices out exactly the same sequence of complete frames as feeding the
concatenated stream in a single call, and hence performs exactly the same
state updates on the store. -/
theorem civ_chunk_independence (chunks : List (List Nat)) (now : Nat) (s : StoreState) :
    feedChunks chunks = handleData chunks.flatten [] ∧
    processFrames (feedChunks chunks).1 now s
      = processFrames (handleData chunks.flatten []).1 now s := by
  have h0 : civLoop ([] : List Nat) = ([], []) := by
    have := civLoop_of_fdIdx_none [] (by rfl)
    simpa using this
  have h := feedChunks_go chunks [] [] h0
  constructor
  · rw [feedChunks, h]
    simp [handleData]
  · rw [feedChunks, h]
    simp [handleData]

/-- C5: a complete CI-V frame whose `to` address byte (frame byte 2)
differs from the controller address `0xe0` causes no state mutation:
processing it yields no `updateState` call, and removing it from any
frame sequence leaves the store evolution unchanged. -/
theorem civ_ignores_other_address (frame : List Nat) (cur : JsVal)
    (h : frame.getD 2 0 ≠ 0xe0) :
    processFrame frame cur = [] ∧
    ∀ (fs1 fs2 : List (List Nat)) (now : Nat) (s : StoreState),
      processFrames (fs1 ++ frame :: fs2) now s = processFrames (fs1 ++ fs2) now s := by
  have hframe : ∀ c, processFrame frame c = [] := by
    intro c
    unfold processFrame
    split_ifs <;> first | rfl | simp_all
  constructor
  · exact hframe cur
  · intro fs1 fs2 now s
    simp [processFrames, List.foldl_append, hframe, applyUpdates]

/-- Witness for `civ_ignores_other_address`: a well-formed frequency
frame addressed to `0x94` (the rig, not the controller) is ignored. -/
theorem civ_ignores_other_address_witness :
    ([0xfe, 0xfe, 0x94, 0xe0, 0x03, 0x00, 0x40, 0x07, 0x14, 0x00, 0xfd] : List Nat).getD 2 0
        ≠ 0xe0 ∧
      processFrame [0xfe, 0xfe, 0x94, 0xe0, 0x03, 0x00, 0x40, 0x07, 0x14, 0x00, 0xfd]
        (JsVal.vs "") = [] :=
  ⟨by decide,
   (civ_ignores_other_address [0xfe, 0xfe, 0x94, 0xe0, 0x03, 0x00, 0x40, 0x07, 0x14, 0x00, 0xfd]
     (JsVal.vs "") (by decide)).1⟩

/-- C6: whenever the Registry switches the active rig adapter,
`disconnect()` is called on the previously held instance exactly once,
strictly before any `create`/`connect` call for the new one (when there
was no previous instance no disconnect happens at all), and afterwards
the Registry holds either no instance or exactly the new one — so at most
one rig instance is ever held, even when the previous instance never
successfully connected. -/
theorem switchPlugin_disconnect_first (reg : Registry) (id : String)
    (known : String → Bool) (createOk connectOk : Bool) :
    (∀ prev, reg.inst = some prev →
      ∃ tail, (switchPlugin reg id known createOk connectOk).events
          = RegEvent.disconnectEv prev :: tail ∧
        ∀ q, RegEvent.disconnectEv q ∉ tail) ∧
    (reg.inst = none →
      ∀ q, RegEvent.disconnectEv q ∉ (switchPlugin reg id known createOk connectOk).events) ∧
    ((switchPlugin reg id known createOk connectOk).reg.inst = none ∨
      (switchPlugin reg id known createOk connectOk).reg.inst = some id) := by
  refine ⟨?_, ?_, ?_⟩
  · intro prev hp
    simp only [switchPlugin, hp]
    split_ifs <;> exact ⟨_, rfl, by intro q; simp⟩
  · intro hp
    simp only [switchPlugin, hp]
    split_ifs <;> intro q <;> simp
  · cases hp : reg.inst <;> simp only [switchPlugin, hp] <;> split_ifs <;> simp [hp]

/-- Witness for `switchPlugin_disconnect_first`: switching from a held
`mock` instance to `flrig` emits disconnect, create, connect in order. -/
theorem switchPlugin_disconnect_first_witness :
    (switchPlugin { inst := some "mock", activeId := some "mock" } "flrig"
        (fun _ => true) true true).events
      = [RegEvent.disconnectEv "mock", RegEvent.createEv "flrig",
         RegEvent.connectEv "flrig"] := by
  have h := (switchPlugin_disconnect_first { inst := some "mock", activeId := some "mock" }
    "flrig" (fun _ => true) true true).1 "mock" rfl
  decide

/-- C7 counterexample: `disconnect()` of the flrig adapter does not reset
the frequency to its zeroed initial value — from a store holding
14074000 Hz, the frequency after `disconnect()` is still 14074000, not 0. -/
theorem flrig_disconnect_not_reset :
    (flrigDisconnect 9
        { st := { connected := .vb true, freq := .vn 14074000, mode := .vs "USB",
                  width := .vn 1, ptt := .vb true, lastUpdate := 5 },
          events := [] }).st.freq ≠ JsVal.vn 0 := by
  decide

/-- C7 (amended): when the active adapter disconnects, the shared state
records only the disconnection: `connected` becomes `false`, while
frequency, mode, width and PTT keep their last-known values instead of
returning to their zeroed initial values. -/
theorem flrig_disconnect_spec (now : Nat) (s : StoreState) :
    (flrigDisconnect now s).st.connected = JsVal.vb false ∧
    (flrigDisconnect now s).st.freq = s.st.freq ∧
    (flrigDisconnect now s).st.mode = s.st.mode ∧
    (flrigDisconnect now s).st.width = s.st.width ∧
    (flrigDisconnect now s).st.ptt = s.st.ptt := by
  unfold flrigDisconnect updateState
  split_ifs with h
  · exact ⟨rfl, rfl, rfl, rfl, rfl⟩
  · push_neg at h
    exact ⟨h, rfl, rfl, rfl, rfl⟩

/-- C8: a PTT command with a truthy `ptt` value received while the
configuration flag `pttEnabled` is `false` is answered with HTTP 403 and
dispatches no `setPTT` call to the active adapter, leaving the rig state
unaffected. -/
theorem ptt_disabled_rejected (ptt : JsVal) (h : truthy ptt = true) :
    pttHandler false ptt = { status := 403, dispatched := none } := by
  simp [pttHandler, h]

/-- Witness for `ptt_disabled_rejected` at `ptt = true`. -/
theorem ptt_disabled_rejected_witness :
    truthy (JsVal.vb true) = true ∧
      pttHandler false (JsVal.vb true) = { status := 403, dispatched := none } :=
  ⟨rfl, ptt_disabled_rejected (JsVal.vb true) rfl⟩

/-- C10: `Registry.dispatch` returns `false` and performs no adapter call
when there is no active rig instance or the instance lacks the named
method; otherwise it invokes the method exactly once with exactly the
given arguments and returns `true`. -/
theorem dispatch_spec (inst : Option AdapterInst) (method : String) (args : List JsVal) :
    (inst = none → dispatch inst method args = (false, [])) ∧
    (∀ i, inst = some i → method ∉ i.methods →
      dispatch inst method args = (false, [])) ∧
    (∀ i, inst = some i → method ∈ i.methods →
      dispatch inst method args = (true, [(method, args)])) := by
  refine ⟨?_, ?_, ?_⟩
  · intro h
    simp [dispatch, h]
  · intro i hi hm
    simp [dispatch, hi, hm]
  · intro i hi hm
    simp [dispatch, hi, hm]

/-- Witness for `dispatch_spec`: no instance means no call and `false`;
an instance implementing `setPTT` gets exactly one call with the given
argument and the dispatch returns `true`. -/
theorem dispatch_spec_witness :
    dispatch none "setPTT" [JsVal.vb true] = (false, []) ∧
      dispatch (some { methods := ["setFreq", "setMode", "setPTT"] }) "setPTT"
          [JsVal.vb true] = (true, [("setPTT", [JsVal.vb true])]) :=
  ⟨(dispatch_spec none "setPTT" [JsVal.vb true]).1 rfl,
   (dispatch_spec (some { methods := ["setFreq", "setMode", "setPTT"] }) "setPTT"
       [JsVal.vb true]).2.2 { methods := ["setFreq", "setMode", "setPTT"] } rfl (by decide)⟩
